import Mathlib

/-!
Verification of the Modbus TCP slave simulator (`src/tools/modbus_simulator.py`)
against its natural-language specification.

The Python source is a thin wrapper over the `pymodbus` library: the register
store, protocol codec and request dispatcher live in that library, so their
behaviour is modelled here from the specification's own description (such
definitions carry a doc comment starting `Modelled from the spec:`).  The
value-generator loop (`update_data`), the initial data store
(`setup_data_store`) and the log line are embedded directly from the source.

Machine integers are modelled as `Nat` (register values, byte values,
transaction ids); the simulated sensor readings, produced by Python floats,
are modelled as exact rationals `ℚ`, which is faithful for the rounding /
truncation questions the claims ask about.
-/

namespace ModbusSim

/-! ## Register store -/

/-- Error taxonomy of the Register Store / Dispatcher (spec §7). -/
inductive ModbusError where
  | OutOfRange
  | IllegalFunction
deriving DecidableEq, Repr

/-- Replace the slice of `bank` starting at `a` by `vs` (in-place slice
assignment, as `ModbusSequentialDataBlock.setValues` does on its list). -/
def setSlice (bank : List ℕ) (a : ℕ) (vs : List ℕ) : List ℕ :=
  bank.take a ++ vs ++ bank.drop (a + vs.length)

/-- Modelled from the spec: Register Store `read` (spec §4.1) —
`read(bank, address, count)` fails with `OutOfRange` when `address+count`
exceeds the bank length, else returns the addressed slice. -/
def read (bank : List ℕ) (a c : ℕ) : Except ModbusError (List ℕ) :=
  if bank.length < a + c then .error .OutOfRange
  else .ok ((bank.drop a).take c)

/-- Modelled from the spec: Register Store `write` (spec §4.1) —
fails with `OutOfRange` when `address+count` exceeds the bank length,
else replaces the addressed slice in place. -/
def write (bank : List ℕ) (a : ℕ) (vs : List ℕ) : Except ModbusError (List ℕ) :=
  if bank.length < a + vs.length then .error .OutOfRange
  else .ok (setSlice bank a vs)

/-- The four register banks of the single slave (source `setup_data_store`,
spec §3 RegisterBank / SlaveContext). -/
structure SlaveContext where
  di : List ℕ
  co : List ℕ
  ir : List ℕ
  hr : List ℕ
deriving DecidableEq, Repr

/-- All four banks have the source's length of 100. -/
def SlaveContext.WF (ctx : SlaveContext) : Prop :=
  ctx.di.length = 100 ∧ ctx.co.length = 100 ∧ ctx.ir.length = 100 ∧ ctx.hr.length = 100

instance (ctx : SlaveContext) : Decidable ctx.WF := by
  unfold SlaveContext.WF; infer_instance

/-- Source `setup_data_store`: each bank is `ModbusSequentialDataBlock(0, [0]*100)`. -/
def setup_data_store : SlaveContext :=
  { di := List.replicate 100 0
    co := List.replicate 100 0
    ir := List.replicate 100 0
    hr := List.replicate 100 0 }

/-- Source: `ModbusServerContext(slaves=store, single=True)` — a server
context holding the single slave store. -/
structure ServerContext where
  store : SlaveContext
deriving DecidableEq, Repr

/-- Modelled from the spec: indexing the single-slave server context
(`context[slave_id]`) returns the one `SlaveContext` regardless of the
requested unit id (spec §3: "all requests are routed to this one context
regardless of the unit id in the request"). -/
def ServerContext.route (sc : ServerContext) (_unitId : ℕ) : SlaveContext :=
  sc.store

/-! ## Protocol codec (spec §4.3) -/

/-- A decoded Modbus frame (spec §3): transaction id, unit id, function code
and function-specific payload bytes.  The protocol id is always 0 and is not
stored. -/
structure Frame where
  txId : ℕ
  unitId : ℕ
  fc : ℕ
  payload : List ℕ
deriving DecidableEq, Repr

/-- Codec failure (spec §7): stream ends mid-frame or protocol id ≠ 0. -/
inductive CodecError where
  | MalformedFrame
deriving DecidableEq, Repr

/-- A 16-bit value as two big-endian bytes. -/
def u16be (n : ℕ) : List ℕ := [n / 256 % 256, n % 256]

/-- Two big-endian bytes back to a 16-bit value. -/
def parseU16 (hi lo : ℕ) : ℕ := hi * 256 + lo

/-- Modelled from the spec: encoding a frame (spec §4.3) — transaction id and
protocol id 0 as 16-bit big-endian, a length field `1 + len(functionCode +
payload)` counting the unit id, then unit id, function code and payload. -/
def encodeFrame (f : Frame) : List ℕ :=
  u16be f.txId ++ u16be 0 ++ u16be (1 + (1 + f.payload.length)) ++
    [f.unitId] ++ f.fc :: f.payload

/-- Modelled from the spec: decoding one frame from a byte stream (spec §4.3)
— read the 7-byte MBAP header, require protocol id 0, then read `length-1`
further bytes as function code + payload; `MalformedFrame` if the stream is
too short (or carries no function code).  Returns the frame and the rest of
the stream. -/
def decodeFrame (stream : List ℕ) : Except CodecError (Frame × List ℕ) :=
  match stream with
  | t1 :: t2 :: p1 :: p2 :: l1 :: l2 :: u :: rest =>
    if p1 = 0 ∧ p2 = 0 then
      let len := parseU16 l1 l2
      if rest.length < len - 1 then .error .MalformedFrame
      else
        match rest.take (len - 1) with
        | [] => .error .MalformedFrame
        | fc :: payload =>
          .ok (⟨parseU16 t1 t2, u, fc, payload⟩, rest.drop (len - 1))
    else .error .MalformedFrame
  | _ => .error .MalformedFrame

/-! ## Request dispatcher (spec §4.4) -/

/-- One byte from up to 8 bit values, LSB first (Modbus bit packing). -/
def byteOfBits (bits : List ℕ) : ℕ :=
  bits.foldr (fun b acc => (if b ≠ 0 then 1 else 0) + 2 * acc) 0

/-- Pack a list of bit values into bytes of 8, LSB first. -/
def packBits (l : List ℕ) : List ℕ :=
  if h : l = [] then []
  else byteOfBits (l.take 8) :: packBits (l.drop 8)
termination_by l.length
decreasing_by
  have : l.length ≠ 0 := fun hl => h (List.eq_nil_of_length_eq_zero hl)
  simp [List.length_drop]
  omega

/-- The 8 bits of a byte, LSB first. -/
def bitsOfByte (b : ℕ) : List ℕ :=
  [b % 2, b / 2 % 2, b / 4 % 2, b / 8 % 2, b / 16 % 2, b / 32 % 2,
   b / 64 % 2, b / 128 % 2]

/-- Unpack packed coil bytes into individual bit values, LSB first. -/
def unpackBits : List ℕ → List ℕ
  | [] => []
  | b :: rest => bitsOfByte b ++ unpackBits rest

/-- Register values as big-endian byte pairs. -/
def regsToBytes : List ℕ → List ℕ
  | [] => []
  | v :: vs => u16be v ++ regsToBytes vs

/-- Byte pairs back to register values; `none` on an odd byte count. -/
def bytesToRegs : List ℕ → Option (List ℕ)
  | [] => some []
  | hi :: lo :: rest => (bytesToRegs rest).map (fun vs => parseU16 hi lo :: vs)
  | [_] => none

/-- The exception response for a request (spec §4.4): same transaction id and
unit id, the request's function code with the high bit set, and a single
exception-code byte as payload. -/
def exceptionFrame (req : Frame) (code : ℕ) : Frame :=
  { txId := req.txId, unitId := req.unitId, fc := req.fc ||| 128
    payload := [code] }

/-- Modelled from the spec: the Request Dispatcher (spec §4.3 payload table
and §4.4) — maps a decoded request to a Register Store operation per function
code, producing either a normal response or an exception response (code 2 on
`OutOfRange`, code 1 on an unrecognized function code) and the possibly
updated slave context.  An ill-shaped payload of a supported code yields
exception code 3 (Illegal Data Value), a case the spec leaves open and no
claim relies on. -/
def dispatch (ctx : SlaveContext) (req : Frame) : Frame × SlaveContext :=
  match req.fc with
  | 1 =>
    match req.payload with
    | [aHi, aLo, cHi, cLo] =>
      match read ctx.co (parseU16 aHi aLo) (parseU16 cHi cLo) with
      | .ok vals =>
        ({ req with payload := (vals.length + 7) / 8 :: packBits vals }, ctx)
      | .error _ => (exceptionFrame req 2, ctx)
    | _ => (exceptionFrame req 3, ctx)
  | 2 =>
    match req.payload with
    | [aHi, aLo, cHi, cLo] =>
      match read ctx.di (parseU16 aHi aLo) (parseU16 cHi cLo) with
      | .ok vals =>
        ({ req with payload := (vals.length + 7) / 8 :: packBits vals }, ctx)
      | .error _ => (exceptionFrame req 2, ctx)
    | _ => (exceptionFrame req 3, ctx)
  | 3 =>
    match req.payload with
    | [aHi, aLo, cHi, cLo] =>
      match read ctx.hr (parseU16 aHi aLo) (parseU16 cHi cLo) with
      | .ok vals =>
        ({ req with payload := 2 * vals.length :: regsToBytes vals }, ctx)
      | .error _ => (exceptionFrame req 2, ctx)
    | _ => (exceptionFrame req 3, ctx)
  | 4 =>
    match req.payload with
    | [aHi, aLo, cHi, cLo] =>
      match read ctx.ir (parseU16 aHi aLo) (parseU16 cHi cLo) with
      | .ok vals =>
        ({ req with payload := 2 * vals.length :: regsToBytes vals }, ctx)
      | .error _ => (exceptionFrame req 2, ctx)
    | _ => (exceptionFrame req 3, ctx)
  | 5 =>
    match req.payload with
    | [aHi, aLo, vHi, vLo] =>
      let v := if parseU16 vHi vLo = 65280 then 1 else 0
      match write ctx.co (parseU16 aHi aLo) [v] with
      | .ok co2 => ({ req with payload := req.payload }, { ctx with co := co2 })
      | .error _ => (exceptionFrame req 2, ctx)
    | _ => (exceptionFrame req 3, ctx)
  | 6 =>
    match req.payload with
    | [aHi, aLo, vHi, vLo] =>
      match write ctx.hr (parseU16 aHi aLo) [parseU16 vHi vLo] with
      | .ok hr2 => ({ req with payload := req.payload }, { ctx with hr := hr2 })
      | .error _ => (exceptionFrame req 2, ctx)
    | _ => (exceptionFrame req 3, ctx)
  | 15 =>
    match req.payload with
    | aHi :: aLo :: cHi :: cLo :: _bc :: bits =>
      let c := parseU16 cHi cLo
      if (unpackBits bits).length < c then (exceptionFrame req 3, ctx)
      else
        match write ctx.co (parseU16 aHi aLo) ((unpackBits bits).take c) with
        | .ok co2 =>
          ({ req with payload := [aHi, aLo, cHi, cLo] }, { ctx with co := co2 })
        | .error _ => (exceptionFrame req 2, ctx)
    | _ => (exceptionFrame req 3, ctx)
  | 16 =>
    match req.payload with
    | aHi :: aLo :: cHi :: cLo :: _bc :: rest =>
      match bytesToRegs rest with
      | some vals =>
        if vals.length = parseU16 cHi cLo then
          match write ctx.hr (parseU16 aHi aLo) vals with
          | .ok hr2 =>
            ({ req with payload := [aHi, aLo, cHi, cLo] },
             { ctx with hr := hr2 })
          | .error _ => (exceptionFrame req 2, ctx)
        else (exceptionFrame req 3, ctx)
      | none => (exceptionFrame req 3, ctx)
    | _ => (exceptionFrame req 3, ctx)
  | _ => (exceptionFrame req 1, ctx)

/-! ## Value generator (source `update_data`, spec §4.2) -/

/-- Python `int()` applied to an exact rational: truncation toward zero. -/
def pyInt (q : ℚ) : ℤ :=
  if 0 ≤ q then ⌊q⌋ else ⌈q⌉

/-- One iteration of the source's `update_data` loop body, parametrized by
the values drawn in that tick (`random.uniform` / `random.choice` results).
Writes `int(temperature*10)` to holding register 0, `int(humidity*10)` to
holding register 1, `int(pressure)` to holding register 2, `status` to coil
0 and `1 if temperature > 28.0 else 0` to discrete input 0, each through
`context[slave_id].setValues`. -/
def update_data_tick (ctx : SlaveContext) (temperature humidity pressure : ℚ)
    (status : ℕ) : SlaveContext :=
  let ctx1 := { ctx with hr := setSlice ctx.hr 0 [(pyInt (temperature * 10)).toNat] }
  let ctx2 := { ctx1 with hr := setSlice ctx1.hr 1 [(pyInt (humidity * 10)).toNat] }
  let ctx3 := { ctx2 with hr := setSlice ctx2.hr 2 [(pyInt pressure).toNat] }
  let ctx4 := { ctx3 with co := setSlice ctx3.co 0 [status] }
  let alarm : ℕ := if 28 < temperature then 1 else 0
  { ctx4 with di := setSlice ctx4.di 0 [alarm] }

/-- Round half to even at integer precision (the rounding used by Python's
fixed-point string formatting), on an exact rational. -/
def roundHalfEven (q : ℚ) : ℤ :=
  if q - ⌊q⌋ < 1/2 then ⌊q⌋
  else if 1/2 < q - ⌊q⌋ then ⌊q⌋ + 1
  else if ⌊q⌋ % 2 = 0 then ⌊q⌋ else ⌊q⌋ + 1

/-- Python `f"{q:.1f}"` on the nonnegative values produced here: round the
value at one decimal place (half to even) and print integer part, a point,
and the single decimal digit. -/
def fmt1f (q : ℚ) : String :=
  let n := roundHalfEven (q * 10)
  toString (n / 10) ++ "." ++ toString (n % 10)

/-- The log line of source lines 78-79:
`f"更新模拟数据: 温度={temperature:.1f}°C, 湿度={humidity:.1f}%, 压力={pressure:.1f}hPa, 状态={status}, 报警={alarm}"`. -/
def logLine (temperature humidity pressure : ℚ) (status alarm : ℕ) : String :=
  "更新模拟数据: 温度=" ++ fmt1f temperature ++ "°C, 湿度=" ++ fmt1f humidity ++
    "%, 压力=" ++ fmt1f pressure ++ "hPa, 状态=" ++ toString status ++
    ", 报警=" ++ toString alarm

/-- The log line emitted by one `update_data` tick: the alarm rendered is the
one computed from this tick's temperature (source line 74). -/
def tickLog (temperature humidity pressure : ℚ) (status : ℕ) : String :=
  logLine temperature humidity pressure status
    (if 28 < temperature then 1 else 0)

/-! ### Slice lemmas -/

theorem length_setSlice (bank : List ℕ) (a : ℕ) (vs : List ℕ)
    (h : a + vs.length ≤ bank.length) :
    (setSlice bank a vs).length = bank.length := by
  unfold setSlice
  simp [List.length_take, List.length_drop]
  omega

theorem drop_take_setSlice (bank : List ℕ) (a : ℕ) (vs : List ℕ)
    (h : a + vs.length ≤ bank.length) :
    ((setSlice bank a vs).drop a).take vs.length = vs := by
  unfold setSlice
  have hlen : (bank.take a).length = a := by
    simp [List.length_take]; omega
  rw [List.append_assoc, List.drop_left' hlen]
  exact List.take_left' rfl

theorem getElem?_setSlice_lt (bank : List ℕ) (a : ℕ) (vs : List ℕ) (i : ℕ)
    (hi : i < a) (ha : a ≤ bank.length) :
    (setSlice bank a vs)[i]? = bank[i]? := by
  unfold setSlice
  have hlen : (bank.take a).length = a := by simp [List.length_take]; omega
  rw [List.append_assoc, List.getElem?_append_left (by omega)]
  exact List.getElem?_take_of_lt hi

theorem getElem?_setSlice_ge (bank : List ℕ) (a : ℕ) (vs : List ℕ) (i : ℕ)
    (hi : a + vs.length ≤ i) (ha : a + vs.length ≤ bank.length) :
    (setSlice bank a vs)[i]? = bank[i]? := by
  unfold setSlice
  have hlen : (bank.take a).length = a := by simp [List.length_take]; omega
  rw [List.getElem?_append_right (by simp [List.length_append]; omega)]
  rw [List.getElem?_drop]
  congr 1
  simp [List.length_append, hlen]
  omega

theorem getElem?_setSlice_self (bank : List ℕ) (a : ℕ) (vs : List ℕ) (i : ℕ)
    (h1 : a ≤ i) (h2 : i < a + vs.length) (ha : a ≤ bank.length) :
    (setSlice bank a vs)[i]? = vs[i - a]? := by
  unfold setSlice
  have hlen : (bank.take a).length = a := by simp [List.length_take]; omega
  rw [List.append_assoc, List.getElem?_append_right (by omega), hlen]
  rw [List.getElem?_append_left (by omega)]

theorem parseU16_u16be (n : ℕ) (h : n < 65536) :
    parseU16 (n / 256 % 256) (n % 256) = n := by
  unfold parseU16; omega

/-- C3: encoding a valid Frame (16-bit transaction id, payload short enough
for the 16-bit MBAP length field) and decoding the produced byte stream
yields the original Frame — transaction id, unit id, function code and
payload all preserved — with the stream fully consumed. -/
theorem decode_encode_roundtrip (f : Frame) (htx : f.txId < 65536)
    (hunit : f.unitId < 256) (hfc : f.fc ∈ [1, 2, 3, 4, 5, 6, 15, 16])
    (hbytes : ∀ b ∈ f.payload, b < 256) (hlen : f.payload.length < 65534) :
    decodeFrame (encodeFrame f) = .ok (f, []) := by
  clear hunit hfc hbytes
  obtain ⟨t, u, fc, payload⟩ := f
  simp only [encodeFrame, u16be, decodeFrame] at htx hlen ⊢
  simp only [List.cons_append, List.nil_append, List.singleton_append]
  rw [if_pos (by constructor <;> trivial)]
  have hL : parseU16 ((1 + (1 + payload.length)) / 256 % 256)
      ((1 + (1 + payload.length)) % 256) = 1 + (1 + payload.length) := by
    unfold parseU16; omega
  simp only [hL]
  rw [if_neg (by simp [List.length_cons]; omega)]
  have htake : (fc :: payload).take (1 + (1 + payload.length) - 1)
      = fc :: payload := by
    apply List.take_of_length_le; simp; omega
  have hdrop : (fc :: payload).drop (1 + (1 + payload.length) - 1) = [] := by
    apply List.drop_of_length_le; simp; omega
  rw [htake, hdrop]
  simp [parseU16_u16be t htx]

/-- Write-then-read on the same range returns the written values. -/
theorem read_write_same (bank : List ℕ) (a : ℕ) (vs : List ℕ)
    (h : a + vs.length ≤ bank.length) :
    ∃ bank2, write bank a vs = .ok bank2 ∧ read bank2 a vs.length = .ok vs := by
  refine ⟨setSlice bank a vs, ?_, ?_⟩
  · unfold write; rw [if_neg (by omega)]
  · unfold read
    rw [if_neg (by rw [length_setSlice bank a vs h]; omega)]
    rw [drop_take_setSlice bank a vs h]

theorem length_unpackBits (bytes : List ℕ) :
    (unpackBits bytes).length = 8 * bytes.length := by
  induction bytes with
  | nil => rfl
  | cons b rest ih =>
    simp [unpackBits, bitsOfByte, List.length_append, ih]
    omega

theorem bytesToRegs_regsToBytes (vs : List ℕ) :
    ∃ vs2, bytesToRegs (regsToBytes vs) = some vs2 ∧ vs2.length = vs.length := by
  induction vs with
  | nil => exact ⟨[], rfl, rfl⟩
  | cons v vs ih =>
    obtain ⟨vs2, h1, h2⟩ := ih
    refine ⟨parseU16 (v / 256 % 256) (v % 256) :: vs2, ?_, by simp [h2]⟩
    simp [regsToBytes, u16be, bytesToRegs, h1]

/-- C2: for every bank of the source's length 100, every valid range
`address + count ≤ 100` and every sequence of `count` in-width values,
`write` succeeds and a `read` of the same range on the resulting bank
returns exactly the written values. -/
theorem write_then_read_roundtrip (bank : List ℕ) (a c : ℕ) (vs : List ℕ)
    (hbank : bank.length = 100) (hc : vs.length = c) (hw : ∀ v ∈ vs, v < 65536)
    (hrange : a + c ≤ 100) :
    ∃ bank2, write bank a vs = .ok bank2 ∧ read bank2 a c = .ok vs := by
  clear hw
  subst hc
  exact read_write_same bank a vs (by omega)

theorem write_then_read_roundtrip_witness :
    ∃ bank2, write (List.replicate 100 0) 10 [1, 2, 3] = .ok bank2 ∧
      read bank2 10 3 = .ok [1, 2, 3] :=
  write_then_read_roundtrip (List.replicate 100 0) 10 3 [1, 2, 3] (by simp)
    rfl (by decide) (by decide)

theorem decode_encode_roundtrip_witness :
    decodeFrame (encodeFrame ⟨7, 1, 3, [0, 0, 0, 10]⟩) =
      .ok (⟨7, 1, 3, [0, 0, 0, 10]⟩, []) :=
  decode_encode_roundtrip ⟨7, 1, 3, [0, 0, 0, 10]⟩ (by decide) (by decide)
    (by decide) (by decide) (by decide)

/-- C7: at startup each of the four banks of `setup_data_store` has exactly
100 entries, every entry is zero, and for every bank and address below 100 a
single-value `read` on the initial state returns `[0]`. -/
theorem initial_state_zero :
    (setup_data_store.di.length = 100 ∧ setup_data_store.co.length = 100 ∧
     setup_data_store.ir.length = 100 ∧ setup_data_store.hr.length = 100) ∧
    ∀ bank ∈ [setup_data_store.di, setup_data_store.co, setup_data_store.ir,
      setup_data_store.hr], ∀ a, a < 100 →
        bank[a]? = some 0 ∧ read bank a 1 = .ok [0] := by
  refine ⟨⟨by simp [setup_data_store], by simp [setup_data_store],
    by simp [setup_data_store], by simp [setup_data_store]⟩, ?_⟩
  intro bank hb a ha
  have hbank : bank = List.replicate 100 0 := by
    simp [setup_data_store] at hb
    rcases hb with rfl | rfl | rfl | rfl <;> rfl
  subst hbank
  refine ⟨List.getElem?_replicate_of_lt ha, ?_⟩
  unfold read
  rw [if_neg (by simp; omega)]
  rw [List.drop_replicate, List.take_replicate]
  congr 1
  have : min 1 (100 - a) = 1 := by omega
  rw [this]
  rfl

theorem initial_state_zero_witness :
    setup_data_store.hr[5]? = some 0 ∧ read setup_data_store.hr 5 1 = .ok [0] :=
  initial_state_zero.2 setup_data_store.hr (by simp) 5 (by decide)

/-- C1: for every bank of the source's length 100 and every (address, count)
with address+count > 100, both `read` and `write` (with `count` values) fail
with `OutOfRange`, and the Dispatcher turns this failure into a Modbus
exception response whose function code is the request's code with the high
bit set, whose exception code is 2, and whose transaction id equals the
request's transaction id — shown for the read requests (codes 1, 2, 3, 4)
and the multi-write requests (codes 15, 16). -/
theorem out_of_range_exception (ctx : SlaveContext) (txId uid a c : ℕ)
    (hW : ctx.WF) (ha : a < 65536) (hc : c < 65536) (hover : 100 < a + c) :
    (∀ bank : List ℕ, bank.length = 100 →
      read bank a c = .error .OutOfRange ∧
      ∀ vs : List ℕ, vs.length = c → write bank a vs = .error .OutOfRange) ∧
    (∀ fc, fc = 1 ∨ fc = 2 ∨ fc = 3 ∨ fc = 4 →
      dispatch ctx ⟨txId, uid, fc, u16be a ++ u16be c⟩ =
        (⟨txId, uid, fc ||| 128, [2]⟩, ctx)) ∧
    (∀ vs : List ℕ, vs.length = c →
      dispatch ctx ⟨txId, uid, 16,
          u16be a ++ u16be c ++ 2 * c % 256 :: regsToBytes vs⟩ =
        (⟨txId, uid, 16 ||| 128, [2]⟩, ctx)) ∧
    dispatch ctx ⟨txId, uid, 15,
        u16be a ++ u16be c ++ (c + 7) / 8 % 256 ::
          List.replicate ((c + 7) / 8) 0⟩ =
      (⟨txId, uid, 15 ||| 128, [2]⟩, ctx) := by
  obtain ⟨hdi, hco, hir, hhr⟩ := hW
  have hpay : u16be a ++ u16be c =
      [a / 256 % 256, a % 256, c / 256 % 256, c % 256] := by simp [u16be]
  have hparse_a := parseU16_u16be a ha
  have hparse_c := parseU16_u16be c hc
  have herr : ∀ bank : List ℕ, bank.length = 100 →
      read bank (parseU16 (a / 256 % 256) (a % 256))
        (parseU16 (c / 256 % 256) (c % 256)) = .error .OutOfRange := by
    intro bank hb
    rw [hparse_a, hparse_c]
    unfold read
    rw [if_pos (by omega)]
  refine ⟨?_, ?_, ?_, ?_⟩
  · intro bank hb
    refine ⟨by unfold read; rw [if_pos (by omega)], ?_⟩
    intro vs hvs
    unfold write
    rw [if_pos (by omega)]
  · intro fc hfc
    rcases hfc with rfl | rfl | rfl | rfl
    · simp only [dispatch, hpay]
      rw [herr ctx.co hco]
      simp [exceptionFrame]
    · simp only [dispatch, hpay]
      rw [herr ctx.di hdi]
      simp [exceptionFrame]
    · simp only [dispatch, hpay]
      rw [herr ctx.hr hhr]
      simp [exceptionFrame]
    · simp only [dispatch, hpay]
      rw [herr ctx.ir hir]
      simp [exceptionFrame]
  · intro vs hvs
    have hpay16 : u16be a ++ u16be c ++ 2 * c % 256 :: regsToBytes vs =
        a / 256 % 256 :: a % 256 :: c / 256 % 256 :: c % 256 ::
          2 * c % 256 :: regsToBytes vs := by simp [u16be]
    obtain ⟨vs2, hbr, hlen2⟩ := bytesToRegs_regsToBytes vs
    simp only [dispatch, hpay16]
    rw [hbr]
    have hwr : write ctx.hr (parseU16 (a / 256 % 256) (a % 256)) vs2 =
        .error .OutOfRange := by
      rw [hparse_a]
      unfold write
      rw [if_pos (by omega)]
    simp only [hparse_c, hlen2, hvs, if_true]
    rw [hwr]
    simp [exceptionFrame]
  · have hpay15 : u16be a ++ u16be c ++ (c + 7) / 8 % 256 ::
        List.replicate ((c + 7) / 8) 0 =
        a / 256 % 256 :: a % 256 :: c / 256 % 256 :: c % 256 ::
          (c + 7) / 8 % 256 :: List.replicate ((c + 7) / 8) 0 := by
      simp [u16be]
    simp only [dispatch, hpay15]
    have hlb : (unpackBits (List.replicate ((c + 7) / 8) 0)).length =
        8 * ((c + 7) / 8) := by
      rw [length_unpackBits, List.length_replicate]
    have hwr : write ctx.co (parseU16 (a / 256 % 256) (a % 256))
        ((unpackBits (List.replicate ((c + 7) / 8) 0)).take
          (parseU16 (c / 256 % 256) (c % 256))) = .error .OutOfRange := by
      rw [hparse_a, hparse_c]
      unfold write
      rw [if_pos (by rw [List.length_take, hlb]; omega)]
    rw [hparse_c, hlb]
    rw [if_neg (by omega)]
    rw [hparse_c] at hwr
    rw [hwr]
    simp [exceptionFrame]

theorem out_of_range_exception_witness :
    read setup_data_store.hr 95 10 = .error .OutOfRange ∧
    write setup_data_store.hr 95 (List.replicate 10 0) = .error .OutOfRange ∧
    dispatch setup_data_store ⟨7, 1, 3, u16be 95 ++ u16be 10⟩ =
      (⟨7, 1, 3 ||| 128, [2]⟩, setup_data_store) ∧
    dispatch setup_data_store ⟨7, 1, 16,
        u16be 95 ++ u16be 10 ++ 2 * 10 % 256 ::
          regsToBytes (List.replicate 10 0)⟩ =
      (⟨7, 1, 16 ||| 128, [2]⟩, setup_data_store) := by
  have h := out_of_range_exception setup_data_store 7 1 95 10
    (by refine ⟨?_, ?_, ?_, ?_⟩ <;> simp [setup_data_store])
    (by decide) (by decide) (by decide)
  exact ⟨(h.1 setup_data_store.hr (by simp [setup_data_store])).1,
    (h.1 setup_data_store.hr (by simp [setup_data_store])).2
      (List.replicate 10 0) (by decide),
    h.2.1 3 (by tauto),
    h.2.2.1 (List.replicate 10 0) (by decide)⟩

/-- C4: whatever unit ids two requests carry, both are routed to the single
`SlaveContext`: a Write Single Register under one unit id followed by a Read
Holding Registers of the same address under any other unit id observes the
written value, and neither request is rejected (both responses echo the
request's unexceptional function code). -/
theorem unit_id_ignored (sc : ServerContext) (uid1 uid2 t1 t2 a v : ℕ)
    (hW : sc.store.WF) (ha : a < 100) (hv : v < 65536) :
    ∃ ctx2 : SlaveContext,
      dispatch (sc.route uid1) ⟨t1, uid1, 6, u16be a ++ u16be v⟩ =
        (⟨t1, uid1, 6, u16be a ++ u16be v⟩, ctx2) ∧
      (∀ uid3, ServerContext.route ⟨ctx2⟩ uid3 = ctx2) ∧
      dispatch (ServerContext.route ⟨ctx2⟩ uid2)
          ⟨t2, uid2, 3, u16be a ++ u16be 1⟩ =
        (⟨t2, uid2, 3, 2 :: u16be v⟩, ctx2) := by
  obtain ⟨hdi, hco, hir, hhr⟩ := hW
  refine ⟨{ sc.store with hr := setSlice sc.store.hr a [v] }, ?_,
    fun uid3 => rfl, ?_⟩
  · have hpay : u16be a ++ u16be v =
        [a / 256 % 256, a % 256, v / 256 % 256, v % 256] := by simp [u16be]
    simp only [ServerContext.route, dispatch, hpay]
    have hwr : write sc.store.hr (parseU16 (a / 256 % 256) (a % 256))
        [parseU16 (v / 256 % 256) (v % 256)] =
        .ok (setSlice sc.store.hr a [v]) := by
      rw [parseU16_u16be a (by omega), parseU16_u16be v hv]
      unfold write
      rw [if_neg (by simp; omega)]
    rw [hwr]
  · have hpay : u16be a ++ u16be 1 = [a / 256 % 256, a % 256, 0, 1] := by
      simp [u16be]
    simp only [ServerContext.route, dispatch, hpay]
    have hrd : read (setSlice sc.store.hr a [v])
        (parseU16 (a / 256 % 256) (a % 256)) (parseU16 0 1) = .ok [v] := by
      rw [parseU16_u16be a (by omega)]
      have h1 : parseU16 0 1 = 1 := by norm_num [parseU16]
      rw [h1]
      unfold read
      rw [if_neg (by rw [length_setSlice _ _ _ (by simp; omega)]; omega)]
      have hdt := drop_take_setSlice sc.store.hr a [v] (by simp; omega)
      simpa using hdt
    rw [hrd]
    simp [u16be, regsToBytes]

theorem unit_id_ignored_witness :
    ∃ ctx2 : SlaveContext,
      dispatch ((ServerContext.mk setup_data_store).route 5)
          ⟨1, 5, 6, u16be 0 ++ u16be 1234⟩ =
        (⟨1, 5, 6, u16be 0 ++ u16be 1234⟩, ctx2) ∧
      (∀ uid3, ServerContext.route ⟨ctx2⟩ uid3 = ctx2) ∧
      dispatch (ServerContext.route ⟨ctx2⟩ 200) ⟨2, 200, 3, u16be 0 ++ u16be 1⟩ =
        (⟨2, 200, 3, 2 :: u16be 1234⟩, ctx2) :=
  unit_id_ignored ⟨setup_data_store⟩ 5 200 1 2 0 1234
    (by refine ⟨?_, ?_, ?_, ?_⟩ <;> simp [setup_data_store])
    (by decide) (by decide)

theorem update_data_tick_values (ctx : SlaveContext) (t h p : ℚ) (s : ℕ)
    (hW : ctx.WF) :
    (update_data_tick ctx t h p s).hr[0]? = some (pyInt (t * 10)).toNat ∧
    (update_data_tick ctx t h p s).hr[1]? = some (pyInt (h * 10)).toNat ∧
    (update_data_tick ctx t h p s).hr[2]? = some (pyInt p).toNat ∧
    (update_data_tick ctx t h p s).co[0]? = some s ∧
    (update_data_tick ctx t h p s).di[0]? = some (if 28 < t then 1 else 0) ∧
    (update_data_tick ctx t h p s).ir = ctx.ir ∧
    (∀ i, 3 ≤ i → (update_data_tick ctx t h p s).hr[i]? = ctx.hr[i]?) ∧
    (∀ i, 1 ≤ i → (update_data_tick ctx t h p s).co[i]? = ctx.co[i]?) ∧
    (∀ i, 1 ≤ i → (update_data_tick ctx t h p s).di[i]? = ctx.di[i]?) := by
  obtain ⟨hdi, hco, hir, hhr⟩ := hW
  simp only [update_data_tick]
  have l1 : (setSlice ctx.hr 0 [(pyInt (t * 10)).toNat]).length = 100 :=
    (length_setSlice _ _ _ (by simp [hhr])).trans hhr
  have l2 : (setSlice (setSlice ctx.hr 0 [(pyInt (t * 10)).toNat]) 1
      [(pyInt (h * 10)).toNat]).length = 100 :=
    (length_setSlice _ _ _ (by simp [l1])).trans l1
  refine ⟨?_, ?_, ?_, ?_, ?_, by trivial, ?_, ?_, ?_⟩
  · rw [getElem?_setSlice_lt _ _ _ _ (by omega) (by rw [l2]; omega)]
    rw [getElem?_setSlice_lt _ _ _ _ (by omega) (by rw [l1]; omega)]
    rw [getElem?_setSlice_self _ _ _ _ (by omega) (by simp) (by omega)]
    rfl
  · rw [getElem?_setSlice_lt _ _ _ _ (by omega) (by rw [l2]; omega)]
    rw [getElem?_setSlice_self _ _ _ _ (by omega) (by simp) (by rw [l1]; omega)]
    rfl
  · rw [getElem?_setSlice_self _ _ _ _ (by omega) (by simp) (by rw [l2]; omega)]
    rfl
  · rw [getElem?_setSlice_self _ _ _ _ (by omega) (by simp) (by rw [hco]; omega)]
    rfl
  · rw [getElem?_setSlice_self _ _ _ _ (by omega) (by simp) (by rw [hdi]; omega)]
    rfl
  · intro i hi
    rw [getElem?_setSlice_ge _ _ _ _ (by simp; omega) (by simp; rw [l2]; omega)]
    rw [getElem?_setSlice_ge _ _ _ _ (by simp; omega) (by simp; rw [l1]; omega)]
    rw [getElem?_setSlice_ge _ _ _ _ (by simp; omega) (by simp; rw [hhr]; omega)]
  · intro i hi
    rw [getElem?_setSlice_ge _ _ _ _ (by simp; omega) (by simp; rw [hco]; omega)]
  · intro i hi
    rw [getElem?_setSlice_ge _ _ _ _ (by simp; omega) (by simp; rw [hdi]; omega)]

/-- C5 (counterexample to the claim as stated): with temperature
t = 514/25 = 20.56 drawn in the tick, the value stored at holding register 0
is 205 = int(t*10) (truncation), while round(t*10) = round(205.6) = 206, so
the stored value does not equal round(t*10). -/
theorem temp_round_counterexample :
    (update_data_tick setup_data_store (514 / 25) 50 1000 0).hr[0]? =
      some 205 ∧
    round ((514 / 25 : ℚ) * 10) = 206 ∧ (205 : ℕ) ≠ 206 := by
  have hW : setup_data_store.WF := by
    refine ⟨?_, ?_, ?_, ?_⟩ <;> simp [setup_data_store]
  have h := (update_data_tick_values setup_data_store (514 / 25) 50 1000 0 hW).1
  refine ⟨?_, by norm_num [round_eq], by decide⟩
  rw [h]
  norm_num [pyInt]
  decide

/-- C5 (amended): on every tick, the value stored at holding register 0 is
int(temperature*10), i.e. temperature*10 truncated toward zero — which for
temperature drawn from [20, 30) equals ⌊temperature*10⌋ — and the value
stored at holding register 1 is likewise ⌊humidity*10⌋ for humidity drawn
from [40, 80); this is not round(·) in general. -/
theorem temp_humidity_truncated (ctx : SlaveContext) (t h p : ℚ) (s : ℕ)
    (hW : ctx.WF) (ht0 : 20 ≤ t) (ht1 : t < 30) (hh0 : 40 ≤ h) (hh1 : h < 80) :
    (update_data_tick ctx t h p s).hr[0]? = some (⌊t * 10⌋).toNat ∧
    (update_data_tick ctx t h p s).hr[1]? = some (⌊h * 10⌋).toNat := by
  obtain ⟨h1, h2, _⟩ := update_data_tick_values ctx t h p s hW
  constructor
  · rw [h1]
    have : pyInt (t * 10) = ⌊t * 10⌋ := by
      unfold pyInt
      rw [if_pos (by linarith)]
    rw [this]
  · rw [h2]
    have : pyInt (h * 10) = ⌊h * 10⌋ := by
      unfold pyInt
      rw [if_pos (by linarith)]
    rw [this]

theorem temp_humidity_truncated_witness :
    (update_data_tick setup_data_store 25 50 1000 0).hr[0]? =
      some (⌊(25 : ℚ) * 10⌋).toNat ∧
    (update_data_tick setup_data_store 25 50 1000 0).hr[1]? =
      some (⌊(50 : ℚ) * 10⌋).toNat :=
  temp_humidity_truncated setup_data_store 25 50 1000 0
    (by refine ⟨?_, ?_, ?_, ?_⟩ <;> simp [setup_data_store])
    (by norm_num) (by norm_num) (by norm_num) (by norm_num)

/-- C6: on every tick, the value written to discrete-input address 0 is 1
exactly when the temperature drawn in that tick is strictly greater than 28,
and 0 otherwise. -/
theorem alarm_threshold (ctx : SlaveContext) (t h p : ℚ) (s : ℕ)
    (hW : ctx.WF) :
    (update_data_tick ctx t h p s).di[0]? =
      some (if 28 < t then 1 else 0) :=
  (update_data_tick_values ctx t h p s hW).2.2.2.2.1

theorem alarm_threshold_witness :
    (update_data_tick setup_data_store 29 50 1000 0).di[0]? =
      some (if (28 : ℚ) < 29 then 1 else 0) :=
  alarm_threshold setup_data_store 29 50 1000 0
    (by refine ⟨?_, ?_, ?_, ?_⟩ <;> simp [setup_data_store])

/-- C10: a value-generator tick writes only holding registers 0, 1, 2, coil
0 and discrete input 0; the input-register bank is unchanged and so is every
holding register at address ≥ 3, every coil at address ≥ 1 and every
discrete input at address ≥ 1. -/
theorem tick_frame_effect (ctx : SlaveContext) (t h p : ℚ) (s : ℕ)
    (hW : ctx.WF) :
    (update_data_tick ctx t h p s).ir = ctx.ir ∧
    (∀ i, 3 ≤ i → (update_data_tick ctx t h p s).hr[i]? = ctx.hr[i]?) ∧
    (∀ i, 1 ≤ i → (update_data_tick ctx t h p s).co[i]? = ctx.co[i]?) ∧
    (∀ i, 1 ≤ i → (update_data_tick ctx t h p s).di[i]? = ctx.di[i]?) := by
  obtain ⟨-, -, -, -, -, h6, h7, h8, h9⟩ :=
    update_data_tick_values ctx t h p s hW
  exact ⟨h6, h7, h8, h9⟩

theorem tick_frame_effect_witness :
    (update_data_tick setup_data_store 25 50 1000 1).ir =
      setup_data_store.ir ∧
    (update_data_tick setup_data_store 25 50 1000 1).hr[3]? =
      setup_data_store.hr[3]? ∧
    (update_data_tick setup_data_store 25 50 1000 1).co[1]? =
      setup_data_store.co[1]? ∧
    (update_data_tick setup_data_store 25 50 1000 1).di[1]? =
      setup_data_store.di[1]? := by
  have h := tick_frame_effect setup_data_store 25 50 1000 1
    (by refine ⟨?_, ?_, ?_, ?_⟩ <;> simp [setup_data_store])
  exact ⟨h.1, h.2.1 3 (by omega), h.2.2.1 1 (by omega), h.2.2.2 1 (by omega)⟩

/-- C8 (counterexample to the claim as stated): at a concrete tick
(temperature 25, humidity 50, pressure 1000, status 0) the emitted log line
is the source's Chinese-label line, not a line of the claimed form
`Updated simulated data: temperature=...`. -/
theorem log_line_counterexample :
    logLine 25 50 1000 0 0 =
      "更新模拟数据: 温度=25.0°C, 湿度=50.0%, 压力=1000.0hPa, 状态=0, 报警=0" ∧
    logLine 25 50 1000 0 0 ≠
      "Updated simulated data: temperature=25.0°C, humidity=50.0%, pressure=1000.0hPa, status=0, alarm=0" := by
  have f25 : fmt1f 25 = "25.0" := by
    unfold fmt1f
    have hr25 : roundHalfEven ((25 : ℚ) * 10) = 250 := by
      norm_num [roundHalfEven]
    rw [hr25]
    decide
  have f50 : fmt1f 50 = "50.0" := by
    unfold fmt1f
    have hr50 : roundHalfEven ((50 : ℚ) * 10) = 500 := by
      norm_num [roundHalfEven]
    rw [hr50]
    decide
  have f1000 : fmt1f 1000 = "1000.0" := by
    unfold fmt1f
    have hr1000 : roundHalfEven ((1000 : ℚ) * 10) = 10000 := by
      norm_num [roundHalfEven]
    rw [hr1000]
    decide
  have hline : logLine 25 50 1000 0 0 =
      "更新模拟数据: 温度=25.0°C, 湿度=50.0%, 压力=1000.0hPa, 状态=0, 报警=0" := by
    unfold logLine
    rw [f25, f50, f1000]
    decide
  exact ⟨hline, by rw [hline]; decide⟩

/-- C8 (amended): each tick emits one log line with the source's Chinese
labels — `更新模拟数据: 温度=<v1>°C, 湿度=<v2>%, 压力=<v3>hPa, 状态=<v4>,
报警=<v5>` — where temperature, humidity and pressure are rendered to one
decimal place and status and alarm are rendered as 0 or 1. -/
theorem tick_log_format (t h p : ℚ) (s : ℕ) (hs : s = 0 ∨ s = 1) :
    tickLog t h p s =
      "更新模拟数据: 温度=" ++ fmt1f t ++ "°C, 湿度=" ++ fmt1f h ++
        "%, 压力=" ++ fmt1f p ++ "hPa, 状态=" ++ toString s ++ ", 报警=" ++
        (if 28 < t then "1" else "0") ∧
    (toString s = "0" ∨ toString s = "1") ∧
    ((if 28 < t then "1" else "0") = "0" ∨
      (if 28 < t then "1" else "0") = "1") ∧
    (∀ q : ℚ, ∃ d : ℤ, 0 ≤ d ∧ d < 10 ∧
      fmt1f q = toString (roundHalfEven (q * 10) / 10) ++ "." ++ toString d) := by
  refine ⟨?_, ?_, ?_, ?_⟩
  · unfold tickLog logLine
    by_cases h28 : 28 < t
    · rw [if_pos h28, if_pos h28]
      rfl
    · rw [if_neg h28, if_neg h28]
      rfl
  · rcases hs with rfl | rfl
    · exact Or.inl rfl
    · exact Or.inr rfl
  · by_cases h28 : 28 < t
    · exact Or.inr (by rw [if_pos h28])
    · exact Or.inl (by rw [if_neg h28])
  · intro q
    exact ⟨roundHalfEven (q * 10) % 10, Int.emod_nonneg _ (by norm_num),
      Int.emod_lt_of_pos _ (by norm_num), rfl⟩

theorem tick_log_format_witness :
    tickLog 29 50 1000 1 =
      "更新模拟数据: 温度=" ++ fmt1f 29 ++ "°C, 湿度=" ++ fmt1f 50 ++
        "%, 压力=" ++ fmt1f 1000 ++ "hPa, 状态=" ++ toString 1 ++ ", 报警=" ++
        (if (28 : ℚ) < 29 then "1" else "0") ∧
    (toString 1 = "0" ∨ toString 1 = "1") ∧
    ((if (28 : ℚ) < 29 then "1" else "0") = "0" ∨
      (if (28 : ℚ) < 29 then "1" else "0") = "1") ∧
    (∀ q : ℚ, ∃ d : ℤ, 0 ≤ d ∧ d < 10 ∧
      fmt1f q = toString (roundHalfEven (q * 10) / 10) ++ "." ++ toString d) :=
  tick_log_format 29 50 1000 1 (Or.inr rfl)

end ModbusSim
